import Mathlib

/-!
Shallow embedding of the permission-resolution, overwrite-layering,
audit-log target resolution and message-pagination logic of the `disco`
library (files `disco/types/guild.py` and `disco/types/channel.py`).

Snowflake ids are `Nat`.  The `AutoDictField` maps of the source are
embedded as association lists with `List.lookup` (a Python `dict.get`,
returning `none` when the key is absent).  Python exceptions are embedded
as an `Except` error channel with a `PyError` kind.
-/

namespace Disco

/-- Kinds of Python exceptions (and hypothesised error kinds from the
design documents) that the embedded code can signal. `attributeError` is
the `AttributeError` raised when an attribute is read off `None`;
`exception msg` is a `raise Exception(msg)`; `stopIteration` is
`StopIteration`; `typeError` stands for the failure path that feeds `None`
into external snowflake coercion. `notFound` and `configurationError` are
error classes named by the design document; nothing in the source raises
them, they exist so that statements about them can be expressed. -/
inductive PyError where
  | attributeError
  | indexError
  | typeError
  | exception (msg : String)
  | stopIteration
  | notFound
  | configurationError
deriving DecidableEq

/-- Modelled from the spec: `disco/types/permissions.py` is not part of the
sources. A `PermissionValue` is a bitset (64-bit integer) supporting
union (`+`), subtraction/clear (`-`) and membership test; we embed it as
`Nat` with bitwise operations. -/
def permAdd (v a : Nat) : Nat := v ||| a

/-- Modelled from the spec: clearing (`-=`) removes the other operand's
bits from the value. -/
def permSub (v d : Nat) : Nat := Nat.ldiff v d

/-- Modelled from the spec: the full-permission (administrator) flag of the
missing permissions module; a fixed single-bit constant. -/
def Permissions.ADMINISTRATOR : Nat := 8

/-- A permission flag `x` is contained in a value when its bit is set. -/
def permHas (v x : Nat) : Bool := v.testBit x

/-- `disco.types.guild.Role`: only the fields that permission resolution
reads. -/
structure Role where
  id : Nat
  permissions : Nat
deriving DecidableEq

/-- `disco.types.user.User`: only the id is read by the embedded code. -/
structure User where
  id : Nat
deriving DecidableEq

/-- `disco.types.guild.GuildMember`: a wrapped user plus role-id list. -/
structure GuildMember where
  user : User
  roles : List Nat
deriving DecidableEq

/-- `GuildMember.id` property: `return self.user.id`. -/
def GuildMember.id (m : GuildMember) : Nat := m.user.id

/-- `disco.types.channel.PermissionOverwrite`: id plus allow/deny bitsets. -/
structure PermissionOverwrite where
  id : Nat
  allow : Nat
  deny : Nat
deriving DecidableEq

/-- `PermissionOverwrite.compiled`:
`value = PermissionValue(); value -= self.deny; value += self.allow`. -/
def PermissionOverwrite.compiled (ow : PermissionOverwrite) : Nat :=
  permAdd (permSub 0 ow.deny) ow.allow

/-- `disco.types.channel.Channel`: guild association, id and the overwrite
map keyed by entity id. `guild_id = none` embeds a missing (`None`)
guild id. -/
structure Channel where
  id : Nat
  guild_id : Option Nat
  overwrites : List (Nat × PermissionOverwrite)
deriving DecidableEq

/-- `disco.types.guild.GuildEmoji`: only its identity matters here. -/
structure GuildEmoji where
  id : Nat
deriving DecidableEq

/-- `disco.types.guild.Guild`: the maps read by permission resolution and
audit-log target resolution. -/
structure Guild where
  id : Nat
  owner_id : Nat
  roles : List (Nat × Role)
  members : List (Nat × GuildMember)
  channels : List (Nat × Channel)
  emojis : List (Nat × GuildEmoji)
deriving DecidableEq

/-- The client state snapshot (`client.state`): guilds and users by id. -/
structure ClientState where
  guilds : List (Nat × Guild)
  users : List (Nat × User)
deriving DecidableEq

/-- `Guild.get_member`: the member-cache lookup. On a cache miss the
source calls the external REST API and returns `None` when that call
fails with `APIException`; the external call is outside the embedding, so
a miss resolves to `none`. -/
def Guild.get_member (g : Guild) (user : Nat) : Option GuildMember :=
  g.members.lookup user

/-- One step of the role-permission aggregation loop of
`Guild.get_permissions`: `value += role.permissions` after
`self.roles.get(role_id)`; reading `.permissions` off a `None` lookup
raises `AttributeError`. -/
def roleStep (g : Guild) (value : Nat) (role_id : Nat) : Except PyError Nat :=
  match g.roles.lookup role_id with
  | none => .error .attributeError
  | some role => .ok (permAdd value role.permissions)

/-- `Guild.get_permissions` (guild.py lines 528-556): owner short-circuits
to the administrator value; otherwise start from the everyone role's
permissions (`self.roles.get(self.id).permissions`) and union in
`role.permissions` for every `role in map(self.roles.get,
member.roles + [self.id])`. -/
def Guild.get_permissions (g : Guild) (member : GuildMember) : Except PyError Nat :=
  if g.owner_id = member.id then
    .ok Permissions.ADMINISTRATOR
  else
    match g.roles.lookup g.id with
    | none => .error .attributeError
    | some everyone =>
      (member.roles ++ [g.id]).foldlM (roleStep g) everyone.permissions

/-- `Channel.get_permissions` (channel.py lines 204-245). A falsy
`guild_id` (Python `if not self.guild_id`: `None` or `0`) returns the
administrator value. Otherwise resolve the guild from the state snapshot,
the member from the guild, take the guild base permissions, and layer the
everyone overwrite, then each member-role overwrite, then the
member-specific overwrite; each present overwrite first subtracts its
`deny` and then adds its `allow`. -/
def Channel.get_permissions (st : ClientState) (c : Channel) (user : Nat) :
    Except PyError Nat :=
  if c.guild_id.getD 0 = 0 then
    .ok Permissions.ADMINISTRATOR
  else
    match st.guilds.lookup (c.guild_id.getD 0) with
    | none => .error .attributeError
    | some guild =>
      match guild.get_member user with
      | none => .error .typeError
      | some member =>
        match guild.get_permissions member with
        | .error e => .error e
        | .ok base0 =>
          let base1 :=
            match c.overwrites.lookup (c.guild_id.getD 0) with
            | some everyone => permAdd (permSub base0 everyone.deny) everyone.allow
            | none => base0
          let base2 := member.roles.foldl (fun b role_id =>
            match c.overwrites.lookup role_id with
            | some ow => permAdd (permSub b ow.deny) ow.allow
            | none => b) base1
          let base3 :=
            match c.overwrites.lookup member.user.id with
            | some ow_member => permAdd (permSub base2 ow_member.deny) ow_member.allow
            | none => base2
          .ok base3

/-- The single overwrite step of the layering, as a standalone function:
if the overwrite is present, subtract its deny then add its allow. -/
def applyOverwrite (ow : Option PermissionOverwrite) (b : Nat) : Nat :=
  match ow with
  | some o => permAdd (permSub b o.deny) o.allow
  | none => b

/-- `MessageIterator.Direction.UP = 1` (channel.py). -/
def Direction.UP : Nat := 1

/-- `MessageIterator.Direction.DOWN = 2` (channel.py). -/
def Direction.DOWN : Nat := 2

/-- The mutable state of a `disco.types.channel.MessageIterator`:
direction, bulk flag, the `before`/`after` cursors, the chunk size and
the internal message buffer (messages embedded by their snowflake id). -/
structure MessageIterator where
  direction : Nat
  bulk : Bool
  before : Option Nat
  after : Option Nat
  chunk_size : Nat
  buffer : List Nat
deriving DecidableEq

/-- `MessageIterator.__init__` (channel.py lines 854-867): store the
arguments with an empty buffer, then
`raise Exception('Must specify either before or after for downward
seeking')` when both cursors are `None` and the direction is `DOWN`. -/
def MessageIterator.init (direction : Nat) (bulk : Bool)
    (before after : Option Nat) (chunk_size : Nat) :
    Except PyError MessageIterator :=
  if before = none ∧ after = none ∧ direction = Direction.DOWN then
    .error (.exception "Must specify either before or after for downward seeking")
  else
    .ok { direction := direction, bulk := bulk, before := before,
          after := after, chunk_size := chunk_size, buffer := [] }

/-- `MessageIterator.fill` (channel.py lines 869-899): fetch a page with
the current cursors (`channels_messages_list(channel, before, after,
limit=chunk_size)` — the external fetch is the function argument), store
it as the buffer, report `False` when it is empty; otherwise clear both
cursors and set `before` to the last buffered id for direction `UP`, or
reverse the buffer in place and set `after` to its (new) last id
otherwise. -/
def MessageIterator.fill (fetch : Option Nat → Option Nat → Nat → List Nat)
    (self : MessageIterator) : Bool × MessageIterator :=
  let buf := fetch self.before self.after self.chunk_size
  if buf.length = 0 then
    (false, { self with buffer := buf })
  else if self.direction = Direction.UP then
    (true, { self with buffer := buf, before := buf.getLast?, after := none })
  else
    (true,
      { self with
        buffer := buf.reverse
        after := buf.reverse.getLast?
        before := none })

/-- What one read of the iterator produces: a whole batch in bulk mode,
a single message otherwise. -/
inductive Yield where
  | batch (items : List Nat)
  | single (item : Nat)
deriving DecidableEq

/-- Number of messages carried by one yield. -/
def Yield.size : Yield → Nat
  | .batch items => items.length
  | .single _ => 1

/-- `MessageIterator.__next__` (channel.py lines 920-931): refill when the
buffer is empty, raising `StopIteration` if the fill reports no data; in
bulk mode hand out the whole buffer and clear it, otherwise
`self._buffer.pop()` — remove and return the buffer's last element. The
returned state carries the object's mutations even when the read raises. -/
def MessageIterator.next (fetch : Option Nat → Option Nat → Nat → List Nat)
    (self : MessageIterator) : Except PyError Yield × MessageIterator :=
  let filledSelf :=
    if self.buffer.length = 0 then MessageIterator.fill fetch self
    else (true, self)
  match filledSelf with
  | (false, s) => (.error .stopIteration, s)
  | (true, s) =>
    if s.bulk then
      (.ok (.batch s.buffer), { s with buffer := [] })
    else
      match s.buffer.getLast? with
      | some x => (.ok (.single x), { s with buffer := s.buffer.dropLast })
      | none => (.error .indexError, s)

/-- Perform up to `n` reads, collecting the yields until a read raises. -/
def MessageIterator.run (fetch : Option Nat → Option Nat → Nat → List Nat) :
    Nat → MessageIterator → List Yield × MessageIterator
  | 0, self => ([], self)
  | n + 1, self =>
    match MessageIterator.next fetch self with
    | (.ok y, s) =>
      let rest := MessageIterator.run fetch n s
      (y :: rest.1, rest.2)
    | (.error _, s) => ([], s)

/-! Audit-log action types and target resolution (guild.py). -/

/-- `AuditLogActionTypes` (guild.py lines 1179-1205), `GUILD_UPDATE = 1`
through `MESSAGE_DELETE = 72`, grouped as in the module-level tuples. -/
def GUILD_ACTIONS : List Nat := [1]

/-- `CHANNEL_ACTIONS` (guild.py): the channel and channel-overwrite
action types. -/
def CHANNEL_ACTIONS : List Nat := [10, 11, 12, 13, 14, 15]

/-- `MEMBER_ACTIONS` (guild.py): kick, prune, ban add/remove, update,
role update. -/
def MEMBER_ACTIONS : List Nat := [20, 21, 22, 23, 24, 25]

/-- `ROLE_ACTIONS` (guild.py): role create/update/delete. -/
def ROLE_ACTIONS : List Nat := [30, 31, 32]

/-- `INVITE_ACTIONS` (guild.py): invite create/update/delete. Defined in
the source but never consulted by `AuditLogEntry.target`. -/
def INVITE_ACTIONS : List Nat := [40, 41, 42]

/-- `WEBHOOK_ACTIONS` (guild.py): webhook create/update/delete. -/
def WEBHOOK_ACTIONS : List Nat := [50, 51, 52]

/-- `EMOJI_ACTIONS` (guild.py): emoji create/update/delete. -/
def EMOJI_ACTIONS : List Nat := [60, 61, 62]

/-- `MESSAGE_ACTIONS` (guild.py): `MESSAGE_DELETE`. Defined in the source
but never consulted by `AuditLogEntry.target`. -/
def MESSAGE_ACTIONS : List Nat := [72]

/-- The heterogeneous entities an audit-log target resolution can hand
back. Webhooks live outside the embedded sources, so a cached webhook
target is represented by its id. -/
inductive AuditTargetEntity where
  | ofGuild (g : Guild)
  | ofChannel (c : Channel)
  | ofUser (u : User)
  | ofRole (r : Role)
  | ofWebhook (id : Nat)
  | ofEmoji (e : GuildEmoji)
deriving DecidableEq

/-- `disco.types.guild.AuditLogEntry`: the fields `target` reads.
`_cached_target` is populated by `AuditLogEntry.create` for member and
webhook actions. -/
structure AuditLogEntry where
  id : Nat
  guild_id : Nat
  user_id : Nat
  target_id : Nat
  action_type : Nat
  cached_target : Option AuditTargetEntity
deriving DecidableEq

/-- `AuditLogEntry.target` (guild.py lines 1360-end): dispatch on the
action-type group; the guild branch returns `self.guild` (a state lookup,
possibly `None`); channel/role/emoji branches read a map off `self.guild`
(an `AttributeError` when that guild lookup is `None`); the member branch
returns `self._cached_target or self.state.users.get(self.target_id)`;
the webhook branch returns the cached target; any other action type falls
off the `elif` chain and returns `None`. -/
def AuditLogEntry.target (st : ClientState) (e : AuditLogEntry) :
    Except PyError (Option AuditTargetEntity) :=
  if e.action_type ∈ GUILD_ACTIONS then
    .ok ((st.guilds.lookup e.guild_id).map .ofGuild)
  else if e.action_type ∈ CHANNEL_ACTIONS then
    match st.guilds.lookup e.guild_id with
    | none => .error .attributeError
    | some g => .ok ((g.channels.lookup e.target_id).map .ofChannel)
  else if e.action_type ∈ MEMBER_ACTIONS then
    match e.cached_target with
    | some t => .ok (some t)
    | none => .ok ((st.users.lookup e.target_id).map .ofUser)
  else if e.action_type ∈ ROLE_ACTIONS then
    match st.guilds.lookup e.guild_id with
    | none => .error .attributeError
    | some g => .ok ((g.roles.lookup e.target_id).map .ofRole)
  else if e.action_type ∈ WEBHOOK_ACTIONS then
    .ok e.cached_target
  else if e.action_type ∈ EMOJI_ACTIONS then
    match st.guilds.lookup e.guild_id with
    | none => .error .attributeError
    | some g => .ok ((g.emojis.lookup e.target_id).map .ofEmoji)
  else
    .ok none

/-! Helper lemmas shared by the proofs. -/

/-- Clearing bits from the empty bitset leaves it empty. -/
lemma ldiff_zero_left (d : Nat) : Nat.ldiff 0 d = 0 := by
  apply Nat.eq_of_testBit_eq
  intro i
  simp [Nat.testBit_ldiff]

/-- Bitwise or is right-commutative. -/
lemma lor_right_comm (z x y : Nat) : (z ||| x) ||| y = (z ||| y) ||| x := by
  rw [Nat.lor_assoc, Nat.lor_assoc, Nat.lor_comm x y]

/-- The pure shape of one aggregation step of `Guild.get_permissions` when
the role lookup succeeds. -/
def pureRoleStep (g : Guild) (v : Nat) (rid : Nat) : Nat :=
  permAdd v (((g.roles.lookup rid).map Role.permissions).getD 0)

/-- If some role id in the prefix is missing from the guild's role map,
the aggregation fold raises `AttributeError`. -/
lemma foldlM_roleStep_error (g : Guild) :
    ∀ (l r : List Nat) (v : Nat),
      (∃ rid ∈ l, g.roles.lookup rid = none) →
      (l ++ r).foldlM (roleStep g) v = .error .attributeError
  | [], _, _, h => by simp at h
  | a :: l, r, v, h => by
    rcases h with ⟨rid, hmem, hnone⟩
    rcases List.mem_cons.mp hmem with heq | htail
    · subst heq
      simp only [List.cons_append, List.foldlM_cons, roleStep, hnone]
      rfl
    · cases ha : g.roles.lookup a with
      | none =>
        simp only [List.cons_append, List.foldlM_cons, roleStep, ha]
        rfl
      | some role =>
        simp only [List.cons_append, List.foldlM_cons, roleStep, ha]
        exact foldlM_roleStep_error g l r _ ⟨rid, htail, hnone⟩

/-- If every role id in the prefix is present, the effectful aggregation
fold factors through the pure fold over the prefix. -/
lemma foldlM_roleStep_append_present (g : Guild) :
    ∀ (l r : List Nat) (v : Nat),
      (∀ rid ∈ l, (g.roles.lookup rid).isSome) →
      (l ++ r).foldlM (roleStep g) v =
        r.foldlM (roleStep g) (l.foldl (pureRoleStep g) v)
  | [], r, v, _ => by simp
  | a :: l, r, v, h => by
    cases ha : g.roles.lookup a with
    | none =>
      have := h a (List.mem_cons_self a l)
      rw [ha] at this
      cases this
    | some role =>
      have hstep : pureRoleStep g v a = permAdd v role.permissions := by
        simp [pureRoleStep, ha]
      simp only [List.cons_append, List.foldlM_cons, roleStep, ha,
        List.foldl_cons, hstep]
      exact foldlM_roleStep_append_present g l r _
        (fun rid hr => h rid (List.mem_cons_of_mem a hr))

/-! The claims. -/

/-- C10: `PermissionOverwrite.compiled` equals the overwrite's `allow`
value exactly — starting from the empty value, subtracting `deny` is a
no-op, then adding `allow` yields `allow`; the `deny` bits never appear
in nor affect the compiled result. -/
theorem compiled_equals_allow (ow : PermissionOverwrite) :
    ow.compiled = ow.allow ∧
      ∀ d : Nat, ({ ow with deny := d } : PermissionOverwrite).compiled = ow.compiled := by
  have h : ∀ a d : Nat, permAdd (permSub 0 d) a = a := by
    intro a d
    simp [permAdd, permSub, ldiff_zero_left]
  exact ⟨h ow.allow ow.deny,
    fun d => by simp [PermissionOverwrite.compiled, h]⟩

/-- C2: for every guild and member whose user id equals the guild's
`owner_id`, `Guild.get_permissions` returns the full-permission
(administrator) value, regardless of the member's roles and without any
role aggregation. -/
theorem owner_resolves_full_permissions (g : Guild) (m : GuildMember)
    (h : m.user.id = g.owner_id) :
    g.get_permissions m = .ok Permissions.ADMINISTRATOR := by
  simp [Guild.get_permissions, GuildMember.id, h]

/-- Concrete instance of C2: owner id 10 with arbitrary roles resolves to
the administrator value. -/
theorem owner_resolves_full_permissions_witness :
    Guild.get_permissions
      { id := 1, owner_id := 10, roles := [], members := [], channels := [], emojis := [] }
      { user := { id := 10 }, roles := [3, 4] } = .ok Permissions.ADMINISTRATOR :=
  owner_resolves_full_permissions _ _ rfl

/-- C8: a channel with no guild association resolves to the
full-permission value for every state snapshot and every user input, with
no overwrite layering applied. -/
theorem dm_channel_full_permissions (c : Channel) (h : c.guild_id = none) :
    ∀ (st : ClientState) (user : Nat),
      Channel.get_permissions st c user = .ok Permissions.ADMINISTRATOR := by
  intro st user
  simp [Channel.get_permissions, h]

/-- Concrete instance of C8: a guild-less channel with an overwrite map
still resolves to the administrator value for user 42. -/
theorem dm_channel_full_permissions_witness :
    Channel.get_permissions { guilds := [], users := [] }
      { id := 5, guild_id := none, overwrites := [(9, { id := 9, allow := 1, deny := 2 })] }
      42 = .ok Permissions.ADMINISTRATOR :=
  dm_channel_full_permissions _ rfl _ _

/-- C9: an audit-log entry whose action type belongs to none of the
action groups consulted by `AuditLogEntry.target` resolves to `none`
without raising. -/
theorem unrecognized_action_target_none (st : ClientState) (e : AuditLogEntry)
    (h1 : e.action_type ∉ GUILD_ACTIONS) (h2 : e.action_type ∉ CHANNEL_ACTIONS)
    (h3 : e.action_type ∉ MEMBER_ACTIONS) (h4 : e.action_type ∉ ROLE_ACTIONS)
    (h5 : e.action_type ∉ WEBHOOK_ACTIONS) (h6 : e.action_type ∉ EMOJI_ACTIONS) :
    e.target st = .ok none := by
  simp [AuditLogEntry.target, h1, h2, h3, h4, h5, h6]

/-- Concrete instances of C9: the invite-create (40) and message-delete
(72) action types, which no branch of `target` recognizes, both resolve
to `none`. -/
theorem unrecognized_action_target_none_witness :
    AuditLogEntry.target { guilds := [], users := [] }
      { id := 1, guild_id := 2, user_id := 3, target_id := 4, action_type := 40,
        cached_target := none } = .ok none ∧
    AuditLogEntry.target { guilds := [], users := [] }
      { id := 1, guild_id := 2, user_id := 3, target_id := 4, action_type := 72,
        cached_target := none } = .ok none :=
  ⟨unrecognized_action_target_none _ _ (by decide) (by decide) (by decide)
      (by decide) (by decide) (by decide),
    unrecognized_action_target_none _ _ (by decide) (by decide) (by decide)
      (by decide) (by decide) (by decide)⟩

/-- A guild whose role map holds only the everyone role, used to exhibit
the behaviour of `Guild.get_permissions` on a dangling role reference. -/
def gMissingRole : Guild :=
  { id := 1, owner_id := 99,
    roles := [(1, { id := 1, permissions := 4 })],
    members := [], channels := [], emojis := [] }

/-- A non-owner member holding role id 5, which `gMissingRole` does not
define. -/
def mMissingRole : GuildMember := { user := { id := 7 }, roles := [5] }

/-- C3 note — counterexample to C3 as stated: resolving permissions for a
member holding a role absent from the guild's role map fails with an
`AttributeError` (reading `.permissions` off the `None` lookup), not with
a `NotFound` error. -/
theorem missing_role_not_notfound :
    Guild.get_permissions gMissingRole mMissingRole = .error .attributeError ∧
      Guild.get_permissions gMissingRole mMissingRole ≠ .error .notFound := by
  constructor
  · rfl
  · intro h
    have := Except.error.inj h
    cases this

/-- C3 amended: for every non-owner member holding some role id absent
from the guild's role map, `Guild.get_permissions` fails with an
`AttributeError` (the missing role surfaces as an error, never silently
skipped); no `NotFound` error class exists in the source. -/
theorem missing_role_raises (g : Guild) (m : GuildMember)
    (hown : g.owner_id ≠ m.user.id)
    (hmiss : ∃ rid ∈ m.roles, g.roles.lookup rid = none) :
    g.get_permissions m = .error .attributeError := by
  have hid : ¬ (g.owner_id = m.id) := hown
  unfold Guild.get_permissions
  rw [if_neg hid]
  cases hgid : g.roles.lookup g.id with
  | none => rfl
  | some everyone => exact foldlM_roleStep_error g m.roles [g.id] _ hmiss

/-- Concrete instance of amended C3: the dangling role id 5 makes the
resolution fail with `AttributeError`. -/
theorem missing_role_raises_witness :
    Guild.get_permissions gMissingRole mMissingRole = .error .attributeError :=
  missing_role_raises gMissingRole mMissingRole (by decide) ⟨5, by decide, rfl⟩

/-- C5 note — counterexample to C5 as stated: a downward iterator with
neither cursor fails at construction, but with a plain
`Exception('Must specify either before or after for downward seeking')`,
not with a `ConfigurationError`. -/
theorem downward_no_cursor_not_configurationerror :
    MessageIterator.init Direction.DOWN false none none 100 =
      .error (.exception "Must specify either before or after for downward seeking") ∧
      MessageIterator.init Direction.DOWN false none none 100 ≠
        .error .configurationError := by
  constructor
  · rfl
  · intro h
    have := Except.error.inj h
    cases this

/-- C5 amended: constructing a downward iterator with both cursors unset
fails at construction time with the source's plain `Exception` (no
iterator value is produced); construction with direction upward, or with
at least one cursor set, succeeds and yields a fully initialized state
with an empty buffer. -/
theorem iterator_init_cursor_check (direction : Nat) (bulk : Bool)
    (before after : Option Nat) (chunk_size : Nat) :
    (direction = Direction.DOWN → before = none → after = none →
      MessageIterator.init direction bulk before after chunk_size =
        .error (.exception "Must specify either before or after for downward seeking")) ∧
    (direction = Direction.UP ∨ before ≠ none ∨ after ≠ none →
      MessageIterator.init direction bulk before after chunk_size =
        .ok { direction := direction, bulk := bulk, before := before,
              after := after, chunk_size := chunk_size, buffer := [] }) := by
  constructor
  · intro hdir hb ha
    subst hdir; subst hb; subst ha
    rfl
  · intro h
    unfold MessageIterator.init
    rw [if_neg]
    intro ⟨hb, ha, hdir⟩
    rcases h with hup | hb' | ha'
    · rw [hup] at hdir
      exact absurd hdir (by decide)
    · exact hb' hb
    · exact ha' ha

/-- Concrete instances of amended C5: the downward/no-cursor construction
fails; the upward one and the downward one with a `before` cursor
succeed. -/
theorem iterator_init_cursor_check_witness :
    MessageIterator.init Direction.DOWN true none none 100 =
      .error (.exception "Must specify either before or after for downward seeking") ∧
    MessageIterator.init Direction.UP true none none 100 =
      .ok { direction := Direction.UP, bulk := true, before := none,
            after := none, chunk_size := 100, buffer := [] } ∧
    MessageIterator.init Direction.DOWN true (some 9) none 100 =
      .ok { direction := Direction.DOWN, bulk := true, before := some 9,
            after := none, chunk_size := 100, buffer := [] } :=
  ⟨(iterator_init_cursor_check Direction.DOWN true none none 100).1 rfl rfl rfl,
    (iterator_init_cursor_check Direction.UP true none none 100).2 (Or.inl rfl),
    (iterator_init_cursor_check Direction.DOWN true (some 9) none 100).2
      (Or.inr (Or.inl (by decide)))⟩

/-- C7: for a non-owner member whose role ids are all present in the
guild's role map, permuting the member's role list does not change the
resolved guild permission value. -/
theorem guild_permissions_role_order_invariant (g : Guild) (m₁ m₂ : GuildMember)
    (huser : m₁.user = m₂.user) (hperm : m₁.roles.Perm m₂.roles)
    (hown : g.owner_id ≠ m₁.user.id)
    (hpres : ∀ rid ∈ m₁.roles, (g.roles.lookup rid).isSome) :
    g.get_permissions m₁ = g.get_permissions m₂ := by
  have hid₁ : ¬ (g.owner_id = m₁.id) := hown
  have hid₂ : ¬ (g.owner_id = m₂.id) := by
    intro hc
    exact hown (by rw [huser]; exact hc)
  unfold Guild.get_permissions
  rw [if_neg hid₁, if_neg hid₂]
  cases hgid : g.roles.lookup g.id with
  | none => rfl
  | some everyone =>
    show (m₁.roles ++ [g.id]).foldlM (roleStep g) everyone.permissions =
      (m₂.roles ++ [g.id]).foldlM (roleStep g) everyone.permissions
    rw [foldlM_roleStep_append_present g m₁.roles [g.id] _ hpres,
      foldlM_roleStep_append_present g m₂.roles [g.id] _
        (fun rid hr => hpres rid (hperm.mem_iff.mpr hr))]
    rw [hperm.foldl_eq' (f := pureRoleStep g)
      (fun x _ y _ z => lor_right_comm z _ _) everyone.permissions]

/-- Concrete instance of C7: swapping the two roles of a member leaves
the resolved value unchanged. -/
theorem guild_permissions_role_order_invariant_witness :
    Guild.get_permissions
      { id := 1, owner_id := 50,
        roles := [(1, { id := 1, permissions := 1 }), (2, { id := 2, permissions := 2 }),
          (3, { id := 3, permissions := 4 })],
        members := [], channels := [], emojis := [] }
      { user := { id := 7 }, roles := [2, 3] } =
    Guild.get_permissions
      { id := 1, owner_id := 50,
        roles := [(1, { id := 1, permissions := 1 }), (2, { id := 2, permissions := 2 }),
          (3, { id := 3, permissions := 4 })],
        members := [], channels := [], emojis := [] }
      { user := { id := 7 }, roles := [3, 2] } :=
  guild_permissions_role_order_invariant _ _ _ rfl
    (List.Perm.swap 3 2 []) (by decide) (by decide)

/-- C1: on a guild channel, permission resolution applies the member's
guild base permissions and then the overwrites in exactly three ordered
steps — the everyone overwrite (keyed by the guild id), then the
overwrites of the member's roles, then the member-specific overwrite —
each step subtracting `deny` before adding `allow`; consequently, when
the everyone overwrite allows flag `x`, a held role's overwrite denies
`x`, and the member-specific overwrite allows `x`, the resolved value
contains `x`. -/
theorem channel_overwrite_layering (st : ClientState) (c : Channel) (u : Nat)
    (gid : Nat) (g : Guild) (m : GuildMember) (base : Nat)
    (hgid : c.guild_id = some gid) (hgz : gid ≠ 0)
    (hguild : st.guilds.lookup gid = some g)
    (hmem : g.get_member u = some m)
    (hbase : g.get_permissions m = .ok base) :
    Channel.get_permissions st c u =
      .ok (applyOverwrite (c.overwrites.lookup m.user.id)
        (m.roles.foldl (fun b rid => applyOverwrite (c.overwrites.lookup rid) b)
          (applyOverwrite (c.overwrites.lookup gid) base))) ∧
    (∀ (x : Nat) (owEveryone owRole owMember : PermissionOverwrite) (rid : Nat),
      c.overwrites.lookup gid = some owEveryone →
      rid ∈ m.roles →
      c.overwrites.lookup rid = some owRole →
      c.overwrites.lookup m.user.id = some owMember →
      permHas owEveryone.allow x = true →
      permHas owRole.deny x = true →
      permHas owMember.allow x = true →
      ∃ v, Channel.get_permissions st c u = .ok v ∧ permHas v x = true) := by
  have hEq : Channel.get_permissions st c u =
      .ok (applyOverwrite (c.overwrites.lookup m.user.id)
        (m.roles.foldl (fun b rid => applyOverwrite (c.overwrites.lookup rid) b)
          (applyOverwrite (c.overwrites.lookup gid) base))) := by
    simp only [Channel.get_permissions, hgid, Option.getD_some, hgz, if_false,
      hguild, hmem, hbase]
    rfl
  refine ⟨hEq, ?_⟩
  intro x owEveryone owRole owMember rid _ _ _ hM _ _ hxM
  refine ⟨_, hEq, ?_⟩
  rw [hM]
  simp [applyOverwrite, permHas, permAdd, Nat.testBit_lor]
  right
  exact hxM

/-- The client state, guild, member and channel of the C1 witness:
the everyone overwrite allows bit 0, the role-2 overwrite denies it and
the member-specific overwrite allows it again. -/
def gLayer : Guild :=
  { id := 1, owner_id := 50,
    roles := [(1, { id := 1, permissions := 0 }), (2, { id := 2, permissions := 0 })],
    members := [(7, { user := { id := 7 }, roles := [2] })],
    channels := [], emojis := [] }

/-- The C1 witness state snapshot holding `gLayer`. -/
def stLayer : ClientState := { guilds := [(1, gLayer)], users := [] }

/-- The C1 witness channel with its three overwrites. -/
def chanLayer : Channel :=
  { id := 30, guild_id := some 1,
    overwrites := [(1, { id := 1, allow := 1, deny := 0 }),
      (2, { id := 2, allow := 0, deny := 1 }),
      (7, { id := 7, allow := 1, deny := 0 })] }

/-- Concrete instance of C1: everyone allows bit 0, the member's role
denies it, the member-specific overwrite allows it — the resolved value
contains bit 0. -/
theorem channel_overwrite_layering_witness :
    ∃ v, Channel.get_permissions stLayer chanLayer 7 = .ok v ∧ permHas v 0 = true :=
  (channel_overwrite_layering stLayer chanLayer 7 1 gLayer
      { user := { id := 7 }, roles := [2] } 0 rfl (by decide) rfl rfl rfl).2
    0 { id := 1, allow := 1, deny := 0 } { id := 2, allow := 0, deny := 1 }
    { id := 7, allow := 1, deny := 0 } 2 rfl (by decide) rfl rfl rfl rfl rfl

/-- C6: with an empty buffer, a read is driven by the external fetch at
the current cursors: a zero-item fetch makes that read and every further
read fail with `StopIteration` while the state never changes (a terminal
situation); a non-empty fetch refills the buffer and advances the cursor
to the last fetched id for direction `UP`, respectively to the last id of
the locally reversed buffer for direction `DOWN`. -/
theorem iterator_refill_protocol (fetch : Option Nat → Option Nat → Nat → List Nat)
    (self : MessageIterator) (hbuf : self.buffer = []) :
    (fetch self.before self.after self.chunk_size = [] →
      MessageIterator.next fetch self = (.error .stopIteration, self) ∧
      ∀ n, MessageIterator.run fetch n self = ([], self)) ∧
    (fetch self.before self.after self.chunk_size ≠ [] →
      self.direction = Direction.UP →
      MessageIterator.fill fetch self =
        (true,
          { self with
            buffer := fetch self.before self.after self.chunk_size
            before := (fetch self.before self.after self.chunk_size).getLast?
            after := none })) ∧
    (fetch self.before self.after self.chunk_size ≠ [] →
      self.direction = Direction.DOWN →
      MessageIterator.fill fetch self =
        (true,
          { self with
            buffer := (fetch self.before self.after self.chunk_size).reverse
            after := (fetch self.before self.after self.chunk_size).reverse.getLast?
            before := none })) := by
  obtain ⟨dir, bulk, bef, aft, cs, buf⟩ := self
  simp only at hbuf
  subst hbuf
  refine ⟨?_, ?_, ?_⟩
  · intro hempty
    have hnext : MessageIterator.next fetch ⟨dir, bulk, bef, aft, cs, []⟩ =
        (.error .stopIteration, ⟨dir, bulk, bef, aft, cs, []⟩) := by
      simp [MessageIterator.next, MessageIterator.fill, hempty]
    refine ⟨hnext, ?_⟩
    intro n
    induction n with
    | zero => rfl
    | succ k ih => simp [MessageIterator.run, hnext, ih]
  · intro hfull hdir
    simp only at hdir
    subst hdir
    simp [MessageIterator.fill, List.length_eq_zero, hfull]
  · intro hfull hdir
    simp only at hdir
    subst hdir
    simp [MessageIterator.fill, List.length_eq_zero, hfull,
      Direction.UP, Direction.DOWN]

/-- Concrete instances of C6: an always-empty fetch leaves the iterator
in the terminal no-yield state; a two-item fetch on an upward iterator
sets `before` to the last fetched id. -/
theorem iterator_refill_protocol_witness :
    (MessageIterator.run (fun _ _ _ => []) 5 ⟨1, false, none, none, 100, []⟩ =
      ([], ⟨1, false, none, none, 100, []⟩)) ∧
    MessageIterator.fill (fun _ _ _ => [5, 3]) ⟨1, false, none, none, 100, []⟩ =
      (true, ⟨1, false, some 3, none, 100, [5, 3]⟩) :=
  ⟨((iterator_refill_protocol (fun _ _ _ => []) ⟨1, false, none, none, 100, []⟩
      rfl).1 rfl).2 5,
    (iterator_refill_protocol (fun _ _ _ => [5, 3]) ⟨1, false, none, none, 100, []⟩
      rfl).2.1 (by decide) rfl⟩

/-- Modelled from the spec: the external page source of the C4 scenario —
a channel holding exactly 250 messages with ids 250 down to 1, listed in
the order the REST endpoint returns them (newest first). -/
def src250 : List Nat := (List.range 250).map (fun i => 250 - i)

/-- Modelled from the spec: the external page-fetch collaborator
`fetch(before, after, limit)` over `src250` — a `before` cursor selects
the ids strictly below it (newest first), an `after` cursor the ids
strictly above it (oldest first), each capped at `limit` items. -/
def fetch250 (before after : Option Nat) (limit : Nat) : List Nat :=
  match before, after with
  | some b, _ => (src250.filter (fun x => decide (x < b))).take limit
  | none, some a => ((src250.filter (fun x => decide (a < x))).reverse).take limit
  | none, none => src250.take limit

/-- C4 note — counterexample to C4 as stated: the non-bulk upward
iteration over the 250-item source yields 151 and then 152 first, while
the source's fetch order starts 250, 249 and the ascending order starts
1, 2 — the 250 yielded items are in neither order, because each read pops
from the end of the fetched buffer. -/
theorem iterator_250_nonbulk_order_counterexample :
    ((MessageIterator.run fetch250 300
        ⟨Direction.UP, false, none, none, 100, []⟩).1.take 2 =
      [Yield.single 151, Yield.single 152]) ∧
    (src250.take 2 = [250, 249]) ∧
    ((MessageIterator.run fetch250 300
        ⟨Direction.UP, false, none, none, 100, []⟩).1 ≠ src250.map Yield.single) ∧
    ((MessageIterator.run fetch250 300
        ⟨Direction.UP, false, none, none, 100, []⟩).1 ≠
      (List.range 250).map (fun i => Yield.single (i + 1))) := by
  refine ⟨rfl, rfl, by decide, by decide⟩

set_option maxRecDepth 40000 in
/-- C4 amended: upward iteration with chunk size 100 over the 250-item
source performs exactly 3 refills of sizes 100, 100 and 50 (the three
bulk batches drain exactly the three refilled buffers) and then raises
the `StopIteration` signal; bulk mode yields exactly 3 batches of sizes
100, 100 and 50; non-bulk mode yields exactly 250 individual items, each
refill's chunk coming out in reverse of its fetched order (151–250, then
51–150, then 1–50) because a read pops the buffer's last element. -/
theorem iterator_250_pagination :
    ((MessageIterator.run fetch250 10
        ⟨Direction.UP, true, none, none, 100, []⟩).1.map Yield.size =
      [100, 100, 50]) ∧
    ((MessageIterator.next fetch250
        (MessageIterator.run fetch250 10
          ⟨Direction.UP, true, none, none, 100, []⟩).2).1 =
      .error .stopIteration) ∧
    ((MessageIterator.run fetch250 300
        ⟨Direction.UP, false, none, none, 100, []⟩).1 =
      ((src250.take 100).reverse ++ ((src250.drop 100).take 100).reverse ++
        (src250.drop 200).reverse).map Yield.single) ∧
    ((MessageIterator.run fetch250 300
        ⟨Direction.UP, false, none, none, 100, []⟩).1.length = 250) := by
  refine ⟨rfl, rfl, rfl, rfl⟩

end Disco
